import Mathlib

/-!
Verification development for the continuation-lowering and gpurt-lowering
subsystem of the repository.  The definitions below are shallow embeddings of
the C++ source functions; the theorems settle the specification claims.

Part 1: the frame store-forwarding optimizer
(`forwardContinuationFrameStoreToLoad` in Continuations.cpp).

The use graph reachable from a continuation-frame base pointer is modelled as
a flat list of `FrameNode`s in SSA (definition-before-use) order: node `i` of
the list is the `i`-th user instruction discovered by the worklist, and
`parent` names the node whose pointer result it consumes (`none` meaning the
frame base pointer itself).  Types are abstract tokens (`Ty := Nat`); the
data-layout store size of a type is a parameter `sz : Ty → Nat`, and the
dominator-tree query `DT.dominates(Store, Load)` is a parameter
`dom : Nat → Nat → Bool` over instruction ids.
-/

/-- Abstract IR value types; `sz : Ty → Nat` below plays the role of
`DataLayout::getTypeStoreSize`. -/
abbrev Ty := Nat

/-- Kind of a user instruction reached from the frame pointer, mirroring the
opcode switch in `forwardContinuationFrameStoreToLoad`:
a `getelementptr` (with its accumulated constant byte offset, or `none` when
`accumulateConstantOffset` fails), a `bitcast`/`addrspacecast`, a load (with
its `isSimple()` flag and loaded type), a store (with its `isSimple()` flag,
whether the stored value operand is the walked pointer itself, the stored
value type and a token for the stored value), or any unhandled opcode. -/
inductive UseKind where
  | gep : Option Int → UseKind
  | cast : UseKind
  | load : Bool → Ty → UseKind
  | store : Bool → Bool → Ty → Nat → UseKind
  | other : UseKind
deriving DecidableEq

/-- One user instruction in the use graph walked from the frame pointer.
`parent = none` means the instruction uses the frame base pointer directly;
`parent = some i` means it uses the pointer produced by node `i`. -/
structure FrameNode where
  parent : Option Nat
  kind : UseKind
deriving DecidableEq

/-- A load discovered by the walk: instruction id, pointer operand
(`none` = the frame pointer itself), byte offset from the frame base, and
loaded type.  Mirrors an `OffsetLoadMap` entry. -/
structure LoadRec where
  id : Nat
  parent : Option Nat
  offset : Int
  ty : Ty
deriving DecidableEq

/-- A store discovered by the walk: instruction id, byte offset from the frame
base, stored value type, and a token for the stored value operand.  Mirrors an
`OffsetStorePair` / interval-tree record. -/
structure StoreRec where
  id : Nat
  offset : Int
  ty : Ty
  valueId : Nat
deriving DecidableEq

/-- Accumulated state of the use-graph walk: per node, the byte offset of the
pointer it produces (`none` for non-pointer-producing nodes), plus the
discovered loads (`OffsetLoadMap`) and stores (`SortedStores` before
sorting, which is also the interval-tree contents). -/
structure WalkState where
  ptrOffsets : List (Option Int)
  loads : List LoadRec
  stores : List StoreRec
deriving DecidableEq

/-- Byte offset of the pointer consumed through a `parent` link: offset 0 for
the frame base pointer itself, otherwise the offset recorded for the parent
node (no entry means the parent does not produce a walked pointer). -/
def parentOffset (st : WalkState) : Option Nat → Option Int
  | none => some 0
  | some p => st.ptrOffsets.getD p none

/-- One step of the use-graph walk of `forwardContinuationFrameStoreToLoad`
(the `while (!Worklist.empty())` switch).  Returning `none` models the early
`return` that aborts the whole analysis: a GEP whose offset is not provably
constant, a non-simple load or store, a store whose stored value operand is
the walked pointer, or an unhandled user kind. -/
def walkStep (acc : Option WalkState) (i : Nat) (n : FrameNode) : Option WalkState :=
  match acc with
  | none => none
  | some st =>
    match parentOffset st n.parent with
    | none => none
    | some off =>
      match n.kind with
      | UseKind.gep none => none
      | UseKind.gep (some o) =>
          some { st with ptrOffsets := st.ptrOffsets ++ [some (off + o)] }
      | UseKind.cast =>
          some { st with ptrOffsets := st.ptrOffsets ++ [some off] }
      | UseKind.load simple ty =>
          if simple then
            some { st with ptrOffsets := st.ptrOffsets ++ [none],
                           loads := st.loads ++ [⟨i, n.parent, off, ty⟩] }
          else none
      | UseKind.store simple valueIsPtr ty v =>
          if simple && !valueIsPtr then
            some { st with ptrOffsets := st.ptrOffsets ++ [none],
                           stores := st.stores ++ [⟨i, off, ty, v⟩] }
          else none
      | UseKind.other => none

/-- Walk the nodes in SSA order, threading the node index. -/
def walkAux : Nat → Option WalkState → List FrameNode → Option WalkState
  | _, acc, [] => acc
  | i, acc, n :: rest => walkAux (i + 1) (walkStep acc i n) rest

/-- Full use-graph walk from the frame pointer.  `none` models the aborting
early `return`s of the source (analysis gives up, function unchanged). -/
def walk (nodes : List FrameNode) : Option WalkState :=
  walkAux 0 (some ⟨[], [], []⟩) nodes

/-- Inclusive right end of a store interval, as inserted into the interval
tree: `Offset + StoredBytes - 1`. -/
def storeRight (sz : Ty → Nat) (s : StoreRec) : Int :=
  s.offset + (sz s.ty : Int) - 1

/-- `StoreIntervals.getContaining(pt)`: all store records whose byte interval
`[offset, offset + storeBytes - 1]` contains the point. -/
def getContaining (sz : Ty → Nat) (stores : List StoreRec) (pt : Int) : List StoreRec :=
  stores.filter (fun s => decide (s.offset ≤ pt) && decide (pt ≤ storeRight sz s))

/-- Insertion (by offset) used to model `llvm::sort` of `SortedStores`. -/
def insertSorted (s : StoreRec) : List StoreRec → List StoreRec
  | [] => [s]
  | t :: ts => if s.offset < t.offset then s :: t :: ts else t :: insertSorted s ts

/-- The offset-sorted sequence of store records. -/
def sortStores (l : List StoreRec) : List StoreRec :=
  l.foldr insertSorted []

/-- `llvm::upper_bound` on the offset-sorted store sequence: the first store
whose offset is strictly greater than the given offset. -/
def firstStoreAfter (sorted : List StoreRec) (off : Int) : Option StoreRec :=
  sorted.find? (fun t => decide (off < t.offset))

/-- The per-load forwarding decision of `forwardContinuationFrameStoreToLoad`
(steps 1-6 of the loop body over `OffsetLoadMap`): the interval query at the
load offset must return exactly one store; that store must start exactly at
the load offset; the interval query at `Offset + LoadBytes - 1` must return
exactly the same single store; no other store may begin strictly inside the
covering store interval; the loaded and stored value types must be equal; and
the store must dominate the load.  Returns the covering store on success. -/
def shouldForward (sz : Ty → Nat) (dom : Nat → Nat → Bool)
    (stores sorted : List StoreRec) (ld : LoadRec) : Option StoreRec :=
  match getContaining sz stores ld.offset with
  | [s] =>
    if ld.offset = s.offset then
      match getContaining sz stores (ld.offset + (sz ld.ty : Int) - 1) with
      | [s2] =>
        if s2.id = s.id then
          match firstStoreAfter sorted ld.offset with
          | some t =>
            if t.offset < storeRight sz s then none
            else if ld.ty = s.ty then
              if dom s.id ld.id then some s else none
            else none
          | none =>
            if ld.ty = s.ty then
              if dom s.id ld.id then some s else none
            else none
        else none
      | _ => none
    else none
  | _ => none

/-- Parent link (pointer operand) of node `q`, read back from the node list. -/
def parentOf (nodes : List FrameNode) (q : Nat) : Option Nat :=
  match nodes.get? q with
  | some n => n.parent
  | none => none

/-- Mutable IR state during the forwarding loop: remaining use counts of each
node and of the frame base pointer, whether the frame base pointer is itself
an instruction, and the accumulated modifications (load replacements, erased
loads, erased address-computation instructions, erased frame pointer). -/
structure ProcState where
  counts : List Nat
  rootCount : Nat
  rootIsInstr : Bool
  replaced : List (Nat × Nat)
  erasedLoads : List Nat
  erasedPtrs : List Nat
  erasedRoot : Bool
deriving DecidableEq

/-- Record the successful forwarding of a load: all uses of the load are
replaced by the stored value, and the load is erased. -/
def recordForward (st : ProcState) (ld : LoadRec) (s : StoreRec) : ProcState :=
  { st with replaced := st.replaced ++ [(ld.id, s.valueId)],
            erasedLoads := st.erasedLoads ++ [ld.id] }

/-- Process one load of the `OffsetLoadMap` loop.  On a successful forward the
load is erased (dropping one use of its pointer operand); if its pointer
operand thereby becomes unused, that address-computation instruction is erased
too (dropping one use of its own pointer operand in turn); the frame base
pointer is erased only when it is itself an instruction
(`dyn_cast<Instruction>(LoadPtr)`). -/
def processLoad (sz : Ty → Nat) (dom : Nat → Nat → Bool) (nodes : List FrameNode)
    (stores sorted : List StoreRec) (st : ProcState) (ld : LoadRec) : ProcState :=
  match shouldForward sz dom stores sorted ld with
  | none => st
  | some s =>
    let st1 := recordForward st ld s
    match ld.parent with
    | none =>
        let c := st1.rootCount - 1
        if c = 0 && st1.rootIsInstr then
          { st1 with rootCount := c, erasedRoot := true }
        else
          { st1 with rootCount := c }
    | some p =>
        let c := st1.counts.getD p 0 - 1
        let st2 := { st1 with counts := st1.counts.set p c }
        if c = 0 then
          let st3 := { st2 with erasedPtrs := st2.erasedPtrs ++ [p] }
          match parentOf nodes p with
          | none => { st3 with rootCount := st3.rootCount - 1 }
          | some q => { st3 with counts := st3.counts.set q (st3.counts.getD q 0 - 1) }
        else st2

/-- Observable outcome of `forwardContinuationFrameStoreToLoad`: the
load-to-value replacements performed, the erased load instructions, the
erased address-computation instructions, and whether the frame base pointer
itself was erased. -/
structure ForwardResult where
  replaced : List (Nat × Nat)
  erasedLoads : List Nat
  erasedPtrs : List Nat
  erasedRoot : Bool
deriving DecidableEq

/-- The function returned without modifying anything. -/
def ForwardResult.noChange : ForwardResult := ⟨[], [], [], false⟩

/-- Initial use count of each node: the number of walked instructions that
consume its pointer result. -/
def initCounts (nodes : List FrameNode) : List Nat :=
  (List.range nodes.length).map
    (fun i => (nodes.filter (fun n => decide (n.parent = some i))).length)

/-- Initial use count of the frame base pointer among the walked users. -/
def rootUseCount (nodes : List FrameNode) : Nat :=
  (nodes.filter (fun n => decide (n.parent = none))).length

/-- The post-walk phase of `forwardContinuationFrameStoreToLoad`: build the
interval tree and the offset-sorted store list, return unchanged if there is
no store, otherwise run the forwarding loop over all discovered loads. -/
def forwardProcess (sz : Ty → Nat) (dom : Nat → Nat → Bool) (rootIsInstr : Bool)
    (nodes : List FrameNode) (w : WalkState) : ForwardResult :=
  if w.stores.isEmpty then ForwardResult.noChange
  else
    let sorted := sortStores w.stores
    let st0 : ProcState :=
      ⟨initCounts nodes, rootUseCount nodes, rootIsInstr, [], [], [], false⟩
    let fin := w.loads.foldl (processLoad sz dom nodes w.stores sorted) st0
    ⟨fin.replaced, fin.erasedLoads, fin.erasedPtrs, fin.erasedRoot⟩

/-- Shallow embedding of `llvm::forwardContinuationFrameStoreToLoad`: walk the
use graph of the frame pointer (any abort leaves the function unchanged),
then forward fully-covered loads. -/
def forwardContinuationFrameStoreToLoad (sz : Ty → Nat) (dom : Nat → Nat → Bool)
    (rootIsInstr : Bool) (nodes : List FrameNode) : ForwardResult :=
  match walk nodes with
  | none => ForwardResult.noChange
  | some w => forwardProcess sz dom rootIsInstr nodes w

/-- A user kind on which the walk aborts the whole analysis: a GEP whose
offset is not provably constant, a non-simple load, a non-simple store or a
store whose stored value is the walked pointer, or an unhandled user kind. -/
def isAbortingUser : UseKind → Bool
  | UseKind.gep none => true
  | UseKind.gep (some _) => false
  | UseKind.cast => false
  | UseKind.load simple _ => !simple
  | UseKind.store simple valueIsPtr _ _ => !simple || valueIsPtr
  | UseKind.other => true

/-- Data layout for the concrete forwarding scenarios: type token 0 is a
4-byte type, every other token is an 8-byte type. -/
def szC1 : Ty → Nat := fun t => if t = 0 then 4 else 8

/-- Dominance oracle that always answers yes (the negative scenarios must fail
for coverage reasons alone). -/
def domAlways : Nat → Nat → Bool := fun _ _ => true

/-- Scenario of the first C1 negative case: a 4-byte store at offset 0
(node 0), a GEP to offset 4 (node 1), a 4-byte store at offset 4 through it
(node 2), and an 8-byte load at offset 0 (node 3). -/
def nodesTwoSmallStores : List FrameNode :=
  [⟨none, UseKind.store true false 0 100⟩,
   ⟨none, UseKind.gep (some 4)⟩,
   ⟨some 1, UseKind.store true false 0 101⟩,
   ⟨none, UseKind.load true 1⟩]

/-- Scenario of the second C1 negative case: an 8-byte store at offset 0
(node 0), a GEP to offset 4 (node 1), a 4-byte store at offset 4 through it
(node 2, strictly interior to the first store), and an 8-byte load at
offset 0 (node 3). -/
def nodesInteriorStore : List FrameNode :=
  [⟨none, UseKind.store true false 1 100⟩,
   ⟨none, UseKind.gep (some 4)⟩,
   ⟨some 1, UseKind.store true false 0 101⟩,
   ⟨none, UseKind.load true 1⟩]

/-!
Part 2: the traversal stack manager (`LowerGpuRt` in LowerGpuRt.cpp).
Machine `unsigned`/`i32` arithmetic is modelled on `Nat` with an explicit
`% 2 ^ 32` wherever the C++/IR computation can wrap.
-/

/-- Fixed per-thread LDS stack entry count.  The constant is declared in
LowerGpuRt.h (not among these sources); its value is pinned by the assert
`assert(MaxLdsStackEntries == 16)` in `visitLdsStackStore` and by the spec
(`E = 16`). -/
def MaxLdsStackEntries : Nat := 16

/-- `llvm::alignTo(value, align)`: round `value` up to the next multiple of
`align` (computed in 64-bit arithmetic, exact for the inputs used here). -/
def alignTo (value align : Nat) : Nat :=
  (value + align - 1) / align * align

/-- `LowerGpuRt::getWorkgroupSize`: 64 for graphics pipelines, otherwise the
product of the three compute workgroup dimensions (an `unsigned` product,
hence taken mod 2^32); for gfx version major >= 11 the result is rounded up
to a multiple of 32 (and truncated back to `unsigned`). -/
def getWorkgroupSize (isGraphics : Bool) (wgX wgY wgZ gfxMajor : Nat) : Nat :=
  let w := if isGraphics then 64 else (wgX * wgY * wgZ) % 2 ^ 32
  if 11 ≤ gfxMajor then alignTo w 32 % 2 ^ 32 else w

/-- The abstract gpurt dialect operations visited by `LowerGpuRt::run`;
stack read/write ops carry their `useExtraStack` flag. -/
inductive GpurtOp where
  | stackWrite (useExtraStack : Bool)
  | stackRead (useExtraStack : Bool)
  | ldsStackInit
  | ldsStackStore
  | getStackSize
  | getStackBase
  | getStackStride
  | getBoxSortHeuristicMode
  | getStaticFlags
  | getTriangleCompressionMode
  | getFlattenedGroupThreadId
deriving DecidableEq

/-- Whether an op makes `createGlobalStack` set `needGlobalStack` (the
visitor registers `GpurtStackWriteOp`, `GpurtStackReadOp` and
`GpurtLdsStackInitOp`). -/
def opNeedsGlobalStack : GpurtOp → Bool
  | GpurtOp.stackWrite _ => true
  | GpurtOp.stackRead _ => true
  | GpurtOp.ldsStackInit => true
  | _ => false

/-- Whether an op contributes `needExtraStack` (only stack read/write ops
carry the flag). -/
def opUseExtraStack : GpurtOp → Bool
  | GpurtOp.stackWrite e => e
  | GpurtOp.stackRead e => e
  | _ => false

/-- `payload.needGlobalStack` after the scan visitor ran over the module. -/
def needGlobalStack (ops : List GpurtOp) : Bool :=
  ops.any opNeedsGlobalStack

/-- `payload.needExtraStack` after the scan visitor ran over the module. -/
def needExtraStack (ops : List GpurtOp) : Bool :=
  ops.any opUseExtraStack

/-- `LowerGpuRt::createGlobalStack`: returns the element count (in 32-bit
words) of the created `LdsStack` global, or `none` when no stack operation
exists in the module.  `ldsStackSize = getWorkgroupSize() * MaxLdsStackEntries`
(unsigned), shifted left by one when any operation requests the extra
stack. -/
def createGlobalStack (isGraphics : Bool) (wgX wgY wgZ gfxMajor : Nat)
    (ops : List GpurtOp) : Option Nat :=
  if needGlobalStack ops then
    let ldsStackSize :=
      (getWorkgroupSize isGraphics wgX wgY wgZ gfxMajor * MaxLdsStackEntries) % 2 ^ 32
    some (if needExtraStack ops then ldsStackSize * 2 % 2 ^ 32 else ldsStackSize)
  else none

/-- `LowerGpuRt::visitGetStackSize`: the i32 constant that replaces a
`GpurtGetStackSizeOp`, namely `MaxLdsStackEntries * getWorkgroupSize()`
(with no doubling for the extra stack). -/
def visitGetStackSize (isGraphics : Bool) (wgX wgY wgZ gfxMajor : Nat) : Nat :=
  (MaxLdsStackEntries * getWorkgroupSize isGraphics wgX wgY wgZ gfxMajor) % 2 ^ 32

/-- The per-thread stack base offset (in dwords) computed by
`LowerGpuRt::visitLdsStackInit` for flat thread index `t` (an i32 value):
when the workgroup size exceeds 32 the stacks are swizzled in groups of 32
lanes, `(t and 31) + (t lshr 5) * (MaxLdsStackEntries * 32)` with wrapping
i32 `mul`/`add`; otherwise the thread id itself. -/
def ldsStackBasePerThread (workgroupSize t : Nat) : Nat :=
  if 32 < workgroupSize then
    let localThreadId := t % 32
    let localGroupId := t / 32
    let stackSize := MaxLdsStackEntries * 32
    (localThreadId + localGroupId * stackSize) % 2 ^ 32
  else t

/-- A call instruction in the module, as seen by `LowerGpuRt::run`: either a
call to one of the visited gpurt dialect ops or any other instruction. -/
inductive ModuleCall where
  | gpurt (op : GpurtOp)
  | other
deriving DecidableEq

/-- Whether `LowerGpuRt::run` lowers this call (every visited gpurt op is
pushed onto `m_callsToLower`). -/
def isLoweredCall : ModuleCall → Bool
  | ModuleCall.gpurt _ => true
  | ModuleCall.other => false

/-- The `m_callsToLower` vector accumulated by the visitor. -/
def callsToLower (m : List ModuleCall) : List ModuleCall :=
  m.filter isLoweredCall

/-- The module contents after `LowerGpuRt::run` erased every lowered call. -/
def eraseLoweredCalls (m : List ModuleCall) : List ModuleCall :=
  m.filter (fun c => !isLoweredCall c)

/-- Return value of an LLVM module pass. -/
inductive PreservedAnalyses where
  | all
  | none
deriving DecidableEq

/-- The return path of `LowerGpuRt::run`:
`if (m_callsToLower.size()) return PreservedAnalyses::all();
return PreservedAnalyses::none();`. -/
def LowerGpuRt.run (m : List ModuleCall) : PreservedAnalyses :=
  if 0 < (callsToLower m).length then PreservedAnalyses.all
  else PreservedAnalyses.none

/-!
Part 3: the intrinsic remapper (`replaceIntrinsicCall` in Continuations.cpp),
restricted to its hit-data argument construction.
-/

/-- The `DXILShaderKind` enumeration of the source. -/
inductive DXILShaderKind where
  | Pixel
  | Vertex
  | Geometry
  | Hull
  | Domain
  | Compute
  | Library
  | RayGeneration
  | Intersection
  | AnyHit
  | ClosestHit
  | Miss
  | Callable
  | Mesh
  | Amplification
  | Node
  | Invalid
deriving DecidableEq

/-- The runtime-library accessor chosen by `replaceIntrinsicCall` for a
table entry that accesses hit data:
`if (Kind == DXILShaderKind::AnyHit || Kind == DXILShaderKind::Intersection)`
the candidate state, else the committed state. -/
def getHitDataFunctionName (kind : DXILShaderKind) : String :=
  if kind = DXILShaderKind.AnyHit ∨ kind = DXILShaderKind.Intersection then
    "_cont_GetCandidateState"
  else
    "_cont_GetCommittedState"

/-- Arguments assembled by `replaceIntrinsicCall` for the mapped runtime
function: the adjusted system-data argument; for hit-data entries a
stack-local temporary (`CreateAlloca`) into which the state fetched by the
named accessor was stored; then the remaining original call arguments,
zero-extended where integer widths differ. -/
inductive IntrArg where
  | systemData
  | hitDataAlloca (accessorName : String)
  | original (index : Nat)
  | zext (index : Nat)
deriving DecidableEq

/-- The leading arguments built by `replaceIntrinsicCall`: the system-data
argument, followed (iff the table entry accesses hit data) by the
stack-local hit-data temporary filled through the stage-selected state
accessor. -/
def replaceIntrinsicCallArgsHead (accessesHitData : Bool)
    (kind : DXILShaderKind) : List IntrArg :=
  [IntrArg.systemData] ++
    (if accessesHitData then [IntrArg.hitDataAlloca (getHitDataFunctionName kind)]
     else [])

/-!
Part 4: the stack address translator (`continuationStackOffsetToPtr` in
Continuations.cpp).
-/

/-- The `ContStackAddrspace` metadata enumeration. -/
inductive ContStackAddrspace where
  | Scratch
  | Global
deriving DecidableEq

/-- The integer values appearing in the produced address computation: the
incoming 32-bit logical stack offset, or the 64-bit base address returned by
`_cont_GetContinuationStackGlobalMemBase` from the gpurt library. -/
inductive StackAddrVal where
  | offset32
  | globalMemBase
deriving DecidableEq

/-- The pointer expression produced by `continuationStackOffsetToPtr`:
an int-to-pointer reinterpretation into an address space, or a byte-indexed
`getelementptr i8` on a base pointer. -/
inductive StackPtr where
  | intToPtr (v : StackAddrVal) (addrspace : ContStackAddrspace)
  | gepI8 (base : StackPtr) (index : StackAddrVal)
deriving DecidableEq

/-- Shallow embedding of `llvm::continuationStackOffsetToPtr`, as a function
of the stack-addrspace module metadata: missing metadata is the
`report_fatal_error` path; Scratch reinterprets the offset directly as a
scratch-address-space pointer; Global reinterprets the 64-bit runtime base
address as a byte pointer and adds the offset via indexed addressing. -/
def continuationStackOffsetToPtr (stackAddrspaceMeta : Option ContStackAddrspace) :
    Except String StackPtr :=
  match stackAddrspaceMeta with
  | none => Except.error "Missing stack addrspace metadata!"
  | some ContStackAddrspace.Scratch =>
      Except.ok (StackPtr.intToPtr StackAddrVal.offset32 ContStackAddrspace.Scratch)
  | some ContStackAddrspace.Global =>
      Except.ok (StackPtr.gepI8
        (StackPtr.intToPtr StackAddrVal.globalMemBase ContStackAddrspace.Global)
        StackAddrVal.offset32)

/-!
Part 5: the pointer address-space rewriter (`replaceAllPointerUses` in
Continuations.cpp).  Fatal conditions (`llvm_unreachable`, failed asserts)
are modelled as `Except.error`; the assert checks precede any mutation in
the source, so an error implies no change was applied.
-/

/-- Kind of an instruction visited by the use-graph walk of
`replaceAllPointerUses`, with the data its case inspects. -/
inductive PtrUserKind where
  | lifetimeCall
  | otherCall
  | loadInst
  | storeInst
  | andInst
  | addInst
  | ptrToIntInst
  | bitCastInst (srcIsPtr : Bool) (destIsPtr : Bool)
  | addrSpaceCastInst (operandAddrspace : Nat)
  | intToPtrInst
  | getElementPtrInst
  | selectInst (resultIsPtr : Bool) (resultAddrspace : Nat)
  | unhandledInst
deriving DecidableEq

/-- Modifications applied by `replaceAllPointerUses`: the root value was
retyped and its uses replaced by the new pointer; visited instructions were
retyped to the new address space; lifetime markers were erased; address-space
casts were marked for removal. -/
structure RewriteChanges where
  rootRetyped : Bool
  rootUsesReplaced : Bool
  retyped : List Nat
  erasedLifetimes : List Nat
  toBeRemoved : List Nat
deriving DecidableEq

/-- One iteration of the worklist switch in `replaceAllPointerUses`:
lifetime markers are erased; any other call is `llvm_unreachable`; loads and
stores are terminal; `and`/`add`/`ptrtoint` just continue; a bitcast must be
between pointer types and is retyped; an addrspacecast asserts its operand
is already in the new address space, is retyped and marked for removal;
`inttoptr`/`getelementptr` are retyped; a pointer-typed select is retyped
unless it already has the new address space; anything else is
`llvm_unreachable`. -/
def replacePointerUseStep (newAS : Nat) (acc : Except String RewriteChanges)
    (pr : Nat × PtrUserKind) : Except String RewriteChanges :=
  match acc with
  | Except.error e => Except.error e
  | Except.ok ch =>
    match pr.2 with
    | PtrUserKind.lifetimeCall =>
        Except.ok { ch with erasedLifetimes := ch.erasedLifetimes ++ [pr.1] }
    | PtrUserKind.otherCall => Except.error "Unhandled call instruction"
    | PtrUserKind.loadInst => Except.ok ch
    | PtrUserKind.storeInst => Except.ok ch
    | PtrUserKind.andInst => Except.ok ch
    | PtrUserKind.addInst => Except.ok ch
    | PtrUserKind.ptrToIntInst => Except.ok ch
    | PtrUserKind.bitCastInst srcIsPtr destIsPtr =>
        if srcIsPtr && destIsPtr then
          Except.ok { ch with retyped := ch.retyped ++ [pr.1] }
        else Except.error "assert failed: bitcast must be between pointer types"
    | PtrUserKind.addrSpaceCastInst operandAS =>
        if operandAS = newAS then
          Except.ok { ch with retyped := ch.retyped ++ [pr.1],
                              toBeRemoved := ch.toBeRemoved ++ [pr.1] }
        else Except.error "assert failed: addrspacecast operand not yet fixed"
    | PtrUserKind.intToPtrInst =>
        Except.ok { ch with retyped := ch.retyped ++ [pr.1] }
    | PtrUserKind.getElementPtrInst =>
        Except.ok { ch with retyped := ch.retyped ++ [pr.1] }
    | PtrUserKind.selectInst resultIsPtr resultAS =>
        if resultIsPtr then
          if resultAS = newAS then Except.ok ch
          else Except.ok { ch with retyped := ch.retyped ++ [pr.1] }
        else Except.ok ch
    | PtrUserKind.unhandledInst => Except.error "Unhandled instruction"

/-- Shallow embedding of `llvm::replaceAllPointerUses`: the entry asserts
that the new address space differs from the old one and that the two pointer
types agree otherwise (both checks precede any mutation); then the root value
is retyped, its uses are replaced by the new pointer, and the use graph is
walked.  `visitedUsers` lists the instructions reached by the worklist. -/
def replaceAllPointerUses (oldAS newAS : Nat) (typesOtherwiseEqual : Bool)
    (visitedUsers : List PtrUserKind) : Except String RewriteChanges :=
  if newAS = oldAS then
    Except.error "assert failed: NewAS != OldPtrTy address space"
  else if !typesOtherwiseEqual then
    Except.error "assert failed: getWithSamePointeeType mismatch"
  else
    visitedUsers.enum.foldl (replacePointerUseStep newAS)
      (Except.ok { rootRetyped := true, rootUsesReplaced := true,
                   retyped := [], erasedLifetimes := [], toBeRemoved := [] })

/-- C1: in `forwardContinuationFrameStoreToLoad`, a load is forwarded only
when a single store exactly and fully covers the loaded byte range and no
other store begins strictly inside it.  Concretely: with 4-byte stores at
offsets 0 and 4 followed by an 8-byte load at offset 0, the load is not
forwarded and remains; and with an 8-byte store at offset 0 followed by a
4-byte store at offset 4 and an 8-byte load at offset 0, the load likewise
is not forwarded and remains (the function performs no change in either
scenario, even with dominance always granted). -/
theorem forwardFrameStore_negative_cases :
    forwardContinuationFrameStoreToLoad szC1 domAlways true nodesTwoSmallStores =
      ForwardResult.noChange ∧
    forwardContinuationFrameStoreToLoad szC1 domAlways true nodesInteriorStore =
      ForwardResult.noChange := by
  constructor <;> rfl

/-- A walk that has already aborted stays aborted. -/
theorem walkAux_none (l : List FrameNode) : ∀ i, walkAux i none l = none := by
  induction l with
  | nil => intro i; rfl
  | cons n rest ih => intro i; simpa [walkAux, walkStep] using ih (i + 1)

/-- Visiting an aborting user kind aborts the walk. -/
theorem walkStep_aborting (st : WalkState) (i : Nat) (n : FrameNode)
    (h : isAbortingUser n.kind = true) : walkStep (some st) i n = none := by
  obtain ⟨parent, kind⟩ := n
  simp only [walkStep]
  cases hp : parentOffset st parent with
  | none => rfl
  | some off =>
    cases kind with
    | gep o =>
      cases o with
      | none => rfl
      | some v => exact absurd h (by simp [isAbortingUser])
    | cast => exact absurd h (by simp [isAbortingUser])
    | load simple ty =>
      have hs : simple = false := by
        cases simple
        · rfl
        · exact absurd h (by simp [isAbortingUser])
      subst hs
      rfl
    | store simple valueIsPtr ty v =>
      have hs : (simple && !valueIsPtr) = false := by
        cases simple <;> cases valueIsPtr <;> simp_all [isAbortingUser]
      simp [hs]
    | other => rfl

/-- If any node of the use graph is an aborting user, the whole walk returns
`none`, regardless of starting index and accumulated state. -/
theorem walkAux_aborting (l : List FrameNode) :
    ∀ (i : Nat) (acc : Option WalkState),
      (∃ n ∈ l, isAbortingUser n.kind = true) → walkAux i acc l = none := by
  induction l with
  | nil =>
    intro i acc h
    exact absurd h (by simp)
  | cons m t ih =>
    intro i acc h
    rcases h with ⟨n, hn, hab⟩
    rcases List.mem_cons.mp hn with rfl | hmem
    · show walkAux (i + 1) (walkStep acc i n) t = none
      cases acc with
      | none => exact walkAux_none t (i + 1)
      | some st =>
        rw [walkStep_aborting st i n hab]
        exact walkAux_none t (i + 1)
    · exact ih (i + 1) _ ⟨n, hmem, hab⟩

/-- C3: `forwardContinuationFrameStoreToLoad` is atomic on failure.  Whenever
the use walk from the frame pointer encounters a GEP whose offset is not
provably constant, a non-simple (volatile/atomic) load or store, a store
whose stored value is the walked pointer itself, or any unhandled user kind,
the analysis returns with the function completely unchanged: no load is
replaced or erased and no partial result is applied (the function returns
normally, so the surrounding compilation continues). -/
theorem forwardFrameStore_abort_no_change (sz : Ty → Nat) (dom : Nat → Nat → Bool)
    (rootIsInstr : Bool) (nodes : List FrameNode)
    (h : ∃ n ∈ nodes, isAbortingUser n.kind = true) :
    forwardContinuationFrameStoreToLoad sz dom rootIsInstr nodes =
      ForwardResult.noChange := by
  have hw : walk nodes = none := walkAux_aborting nodes 0 _ h
  simp [forwardContinuationFrameStoreToLoad, hw]

/-- Witness for C3: a frame whose node 0 is a GEP with a non-constant offset,
followed by a store/load pair that would otherwise be forwardable; the
analysis leaves the function unchanged. -/
theorem forwardFrameStore_abort_no_change_witness :
    (∃ n ∈ [(⟨none, UseKind.gep none⟩ : FrameNode),
            ⟨none, UseKind.store true false 0 7⟩,
            ⟨none, UseKind.load true 0⟩], isAbortingUser n.kind = true) ∧
    forwardContinuationFrameStoreToLoad szC1 domAlways true
        [⟨none, UseKind.gep none⟩,
         ⟨none, UseKind.store true false 0 7⟩,
         ⟨none, UseKind.load true 0⟩] = ForwardResult.noChange :=
  ⟨by decide,
   forwardFrameStore_abort_no_change szC1 domAlways true _ (by decide)⟩

/-- Setting one list entry does not change `getD` at a different index. -/
theorem list_getD_set_ne (l : List Nat) : ∀ (i j a d : Nat), i ≠ j →
    (l.set i a).getD j d = l.getD j d := by
  induction l with
  | nil => intro i j a d _; rfl
  | cons x xs ih =>
    intro i j a d h
    cases i with
    | zero =>
      cases j with
      | zero => exact absurd rfl h
      | succ j2 => rfl
    | succ i2 =>
      cases j with
      | zero => rfl
      | succ j2 => exact ih i2 j2 a d (fun hh => h (by rw [hh]))

/-- Processing a load never removes recorded replacements. -/
theorem mem_processLoad_replaced (sz : Ty → Nat) (dom : Nat → Nat → Bool)
    (nodes : List FrameNode) (stores sorted : List StoreRec)
    (st : ProcState) (ld : LoadRec) (x : Nat × Nat)
    (hx : x ∈ st.replaced) :
    x ∈ (processLoad sz dom nodes stores sorted st ld).replaced := by
  simp only [processLoad, recordForward]
  repeat' split
  all_goals simp_all [List.mem_append]

/-- Processing a load never removes recorded load erasures. -/
theorem mem_processLoad_erasedLoads (sz : Ty → Nat) (dom : Nat → Nat → Bool)
    (nodes : List FrameNode) (stores sorted : List StoreRec)
    (st : ProcState) (ld : LoadRec) (x : Nat)
    (hx : x ∈ st.erasedLoads) :
    x ∈ (processLoad sz dom nodes stores sorted st ld).erasedLoads := by
  simp only [processLoad, recordForward]
  repeat' split
  all_goals simp_all [List.mem_append]

/-- Processing a load never removes recorded pointer erasures. -/
theorem mem_processLoad_erasedPtrs (sz : Ty → Nat) (dom : Nat → Nat → Bool)
    (nodes : List FrameNode) (stores sorted : List StoreRec)
    (st : ProcState) (ld : LoadRec) (x : Nat)
    (hx : x ∈ st.erasedPtrs) :
    x ∈ (processLoad sz dom nodes stores sorted st ld).erasedPtrs := by
  simp only [processLoad, recordForward]
  repeat' split
  all_goals simp_all [List.mem_append]

/-- The forwarding loop never removes recorded replacements. -/
theorem mem_foldl_processLoad_replaced (sz : Ty → Nat) (dom : Nat → Nat → Bool)
    (nodes : List FrameNode) (stores sorted : List StoreRec) (L : List LoadRec) :
    ∀ (st : ProcState) (x : Nat × Nat), x ∈ st.replaced →
      x ∈ (L.foldl (processLoad sz dom nodes stores sorted) st).replaced := by
  induction L with
  | nil => intro st x hx; exact hx
  | cons l t ih =>
    intro st x hx
    exact ih _ _ (mem_processLoad_replaced sz dom nodes stores sorted st l x hx)

/-- The forwarding loop never removes recorded load erasures. -/
theorem mem_foldl_processLoad_erasedLoads (sz : Ty → Nat) (dom : Nat → Nat → Bool)
    (nodes : List FrameNode) (stores sorted : List StoreRec) (L : List LoadRec) :
    ∀ (st : ProcState) (x : Nat), x ∈ st.erasedLoads →
      x ∈ (L.foldl (processLoad sz dom nodes stores sorted) st).erasedLoads := by
  induction L with
  | nil => intro st x hx; exact hx
  | cons l t ih =>
    intro st x hx
    exact ih _ _ (mem_processLoad_erasedLoads sz dom nodes stores sorted st l x hx)

/-- The forwarding loop never removes recorded pointer erasures. -/
theorem mem_foldl_processLoad_erasedPtrs (sz : Ty → Nat) (dom : Nat → Nat → Bool)
    (nodes : List FrameNode) (stores sorted : List StoreRec) (L : List LoadRec) :
    ∀ (st : ProcState) (x : Nat), x ∈ st.erasedPtrs →
      x ∈ (L.foldl (processLoad sz dom nodes stores sorted) st).erasedPtrs := by
  induction L with
  | nil => intro st x hx; exact hx
  | cons l t ih =>
    intro st x hx
    exact ih _ _ (mem_processLoad_erasedPtrs sz dom nodes stores sorted st l x hx)

/-- A load whose forwarding decision succeeds is recorded as replaced by the
stored value and erased. -/
theorem processLoad_records (sz : Ty → Nat) (dom : Nat → Nat → Bool)
    (nodes : List FrameNode) (stores sorted : List StoreRec)
    (st : ProcState) (ld : LoadRec) (s : StoreRec)
    (hfwd : shouldForward sz dom stores sorted ld = some s) :
    (ld.id, s.valueId) ∈ (processLoad sz dom nodes stores sorted st ld).replaced ∧
    ld.id ∈ (processLoad sz dom nodes stores sorted st ld).erasedLoads := by
  simp only [processLoad, recordForward, hfwd]
  repeat' split
  all_goals simp [List.mem_append]

/-- Over the whole forwarding loop, a load whose decision succeeds ends up
replaced by the stored value and erased. -/
theorem foldl_processLoad_records (sz : Ty → Nat) (dom : Nat → Nat → Bool)
    (nodes : List FrameNode) (stores sorted : List StoreRec)
    (L : List LoadRec) (ld : LoadRec) (s : StoreRec)
    (hfwd : shouldForward sz dom stores sorted ld = some s) :
    ∀ st : ProcState, ld ∈ L →
      (ld.id, s.valueId) ∈
          (L.foldl (processLoad sz dom nodes stores sorted) st).replaced ∧
        ld.id ∈ (L.foldl (processLoad sz dom nodes stores sorted) st).erasedLoads := by
  induction L with
  | nil => intro st h; cases h
  | cons l t ih =>
    intro st hld
    rcases List.mem_cons.mp hld with rfl | hmem
    · constructor
      · exact mem_foldl_processLoad_replaced sz dom nodes stores sorted t _ _
          (processLoad_records sz dom nodes stores sorted st ld s hfwd).1
      · exact mem_foldl_processLoad_erasedLoads sz dom nodes stores sorted t _ _
          (processLoad_records sz dom nodes stores sorted st ld s hfwd).2
    · exact ih _ hmem

/-- Processing a load whose pointer operand is not node `p` (and whose
pointer operand is not an address node whose own operand is node `p`) leaves
intact the invariant that node `p` either still has exactly one remaining use
or has already been erased. -/
theorem processLoad_preserves_inv (sz : Ty → Nat) (dom : Nat → Nat → Bool)
    (nodes : List FrameNode) (stores sorted : List StoreRec)
    (p : Nat) (l : LoadRec) (st : ProcState)
    (hlp : l.parent ≠ some p)
    (hCasc : ∀ q, l.parent = some q → parentOf nodes q ≠ some p)
    (hInv : st.counts.getD p 0 = 1 ∨ p ∈ st.erasedPtrs) :
    (processLoad sz dom nodes stores sorted st l).counts.getD p 0 = 1 ∨
      p ∈ (processLoad sz dom nodes stores sorted st l).erasedPtrs := by
  cases hfw : shouldForward sz dom stores sorted l with
  | none => simpa [processLoad, hfw] using hInv
  | some s =>
    cases hpl : l.parent with
    | none =>
      simp only [processLoad, recordForward, hfw, hpl]
      split <;> simpa using hInv
    | some q =>
      have hqp : q ≠ p := fun h => hlp (by rw [hpl, h])
      have hcq := hCasc q hpl
      simp only [processLoad, recordForward, hfw, hpl]
      split
      · cases hpo : parentOf nodes q with
        | none =>
          rcases hInv with h1 | h2
          · left
            simpa [hqp] using h1
          · right
            simp [List.mem_append, h2]
        | some r =>
          have hrp : r ≠ p := fun h => hcq (by rw [hpo, h])
          rcases hInv with h1 | h2
          · left
            simpa [hqp, hrp] using h1
          · right
            simp [List.mem_append, h2]
      · rcases hInv with h1 | h2
        · left
          simpa [hqp] using h1
        · right
          simpa using h2

/-- Processing a forwarded load whose pointer operand is node `p` erases node
`p` when `p` had exactly one remaining use (or keeps it erased). -/
theorem processLoad_erases_ptr (sz : Ty → Nat) (dom : Nat → Nat → Bool)
    (nodes : List FrameNode) (stores sorted : List StoreRec)
    (p : Nat) (ld : LoadRec) (s : StoreRec) (st : ProcState)
    (hlp : ld.parent = some p)
    (hfwd : shouldForward sz dom stores sorted ld = some s)
    (hInv : st.counts.getD p 0 = 1 ∨ p ∈ st.erasedPtrs) :
    p ∈ (processLoad sz dom nodes stores sorted st ld).erasedPtrs := by
  rcases hInv with h1 | h2
  · have hc : st.counts.getD p 0 - 1 = 0 := by rw [h1]
    simp only [processLoad, recordForward, hfwd, hlp]
    rw [if_pos hc]
    cases hpo : parentOf nodes p <;> simp [List.mem_append]
  · exact mem_processLoad_erasedPtrs sz dom nodes stores sorted st ld p h2

/-- Main invariant argument for the pointer-erasure part of the forwarding
loop: if the forwarded load `ld` is the only discovered load whose pointer
operand is node `p`, no erased address node feeds node `p` its last use, and
`p` starts with exactly one use, then `p` ends up erased. -/
theorem foldl_processLoad_erases_ptr (sz : Ty → Nat) (dom : Nat → Nat → Bool)
    (nodes : List FrameNode) (stores sorted : List StoreRec)
    (p : Nat) (ld : LoadRec) (s : StoreRec)
    (hlp : ld.parent = some p)
    (hfwd : shouldForward sz dom stores sorted ld = some s) :
    ∀ (L : List LoadRec) (st : ProcState),
      (∀ l ∈ L, l.parent = some p → l = ld) →
      (∀ l ∈ L, ∀ q, l.parent = some q → parentOf nodes q ≠ some p) →
      ld ∈ L →
      (st.counts.getD p 0 = 1 ∨ p ∈ st.erasedPtrs) →
      p ∈ (L.foldl (processLoad sz dom nodes stores sorted) st).erasedPtrs := by
  intro L
  induction L with
  | nil =>
    intro st _ _ h _
    cases h
  | cons l t ih =>
    intro st hOnly hCasc hld hInv
    by_cases hl : l = ld
    · subst hl
      have h1 := processLoad_erases_ptr sz dom nodes stores sorted p l s st hlp hfwd hInv
      exact mem_foldl_processLoad_erasedPtrs sz dom nodes stores sorted t _ _ h1
    · have hmem : ld ∈ t := by
        rcases List.mem_cons.mp hld with h | h
        · exact absurd h.symm hl
        · exact h
      have hlpne : l.parent ≠ some p :=
        fun hc => hl (hOnly l (List.mem_cons_self l t) hc)
      have hInv2 := processLoad_preserves_inv sz dom nodes stores sorted p l st hlpne
        (hCasc l (List.mem_cons_self l t)) hInv
      exact ih _ (fun l2 h2 => hOnly l2 (List.mem_cons_of_mem _ h2))
        (fun l2 h2 => hCasc l2 (List.mem_cons_of_mem _ h2)) hmem hInv2

/-- Forwarding decision in the single-store scenario: with exactly one simple
4-byte store at offset 0, a simple load at offset 0 of the same type is
forwarded whenever the store dominates it. -/
theorem shouldForward_single (sz : Ty → Nat) (dom : Nat → Nat → Bool)
    (s : StoreRec) (ld : LoadRec)
    (hso : s.offset = 0) (hsz : sz s.ty = 4)
    (hlo : ld.offset = 0) (hlt : ld.ty = s.ty)
    (hdom : dom s.id ld.id = true) :
    shouldForward sz dom [s] (sortStores [s]) ld = some s := by
  have hsr : storeRight sz s = 3 := by
    rw [storeRight, hso, hsz]
    norm_num
  have hc1 : getContaining sz [s] 0 = [s] := by
    simp [getContaining, hso, hsr]
  have hc2 : getContaining sz [s] 3 = [s] := by
    simp [getContaining, hso, hsr]
  have hfa : firstStoreAfter (sortStores [s]) 0 = none := by
    simp [firstStoreAfter, sortStores, insertSorted, hso]
  simp [shouldForward, hlo, hlt, hsz, hso, hdom, hc1, hc2, hfa]

/-- C2: in `forwardContinuationFrameStoreToLoad`, for every frame pointer
whose walked use graph contains exactly one store — a simple store of a
4-byte value `V` at offset 0 — that dominates a simple load of the same type
at offset 0, the optimizer replaces all uses of the load with `V` and erases
the load instruction; moreover, whenever the load reads through an
address-computation instruction `p` whose only discovered consumer is this
load (so erasing the load leaves it unused), that instruction is erased
too. -/
theorem forwardFrameStore_single_store_forwards
    (sz : Ty → Nat) (dom : Nat → Nat → Bool) (rootIsInstr : Bool)
    (nodes : List FrameNode) (w : WalkState) (s : StoreRec) (ld : LoadRec)
    (hw : walk nodes = some w)
    (hstores : w.stores = [s])
    (hso : s.offset = 0) (hsz : sz s.ty = 4)
    (hld : ld ∈ w.loads) (hlo : ld.offset = 0) (hlt : ld.ty = s.ty)
    (hdom : dom s.id ld.id = true) :
    ((ld.id, s.valueId) ∈
        (forwardContinuationFrameStoreToLoad sz dom rootIsInstr nodes).replaced ∧
      ld.id ∈
        (forwardContinuationFrameStoreToLoad sz dom rootIsInstr nodes).erasedLoads) ∧
    (∀ p, ld.parent = some p →
      (initCounts nodes).getD p 0 = 1 →
      (∀ l ∈ w.loads, l.parent = some p → l = ld) →
      (∀ l ∈ w.loads, ∀ q, l.parent = some q → parentOf nodes q ≠ some p) →
      p ∈ (forwardContinuationFrameStoreToLoad sz dom rootIsInstr nodes).erasedPtrs) := by
  have hfwd : shouldForward sz dom [s] (sortStores [s]) ld = some s :=
    shouldForward_single sz dom s ld hso hsz hlo hlt hdom
  have hred : forwardContinuationFrameStoreToLoad sz dom rootIsInstr nodes =
      (let st0 : ProcState :=
        ⟨initCounts nodes, rootUseCount nodes, rootIsInstr, [], [], [], false⟩
       let fin := w.loads.foldl (processLoad sz dom nodes [s] (sortStores [s])) st0
       (⟨fin.replaced, fin.erasedLoads, fin.erasedPtrs, fin.erasedRoot⟩ :
         ForwardResult)) := by
    simp [forwardContinuationFrameStoreToLoad, hw, forwardProcess, hstores]
  rw [hred]
  refine ⟨⟨?_, ?_⟩, ?_⟩
  · exact (foldl_processLoad_records sz dom nodes [s] (sortStores [s]) w.loads ld s
      hfwd _ hld).1
  · exact (foldl_processLoad_records sz dom nodes [s] (sortStores [s]) w.loads ld s
      hfwd _ hld).2
  · intro p hp hcnt hOnly hCasc
    exact foldl_processLoad_erases_ptr sz dom nodes [s] (sortStores [s]) p ld s
      hp hfwd w.loads _ hOnly hCasc hld (Or.inl hcnt)

/-- Witness for C2: frame with a 4-byte store of value 100 at offset 0
(node 0), a zero-offset GEP (node 1) and a load through it (node 2); the
load is replaced by value 100, erased, and its GEP is erased too. -/
theorem forwardFrameStore_single_store_forwards_witness :
    ((2, 100) ∈ (forwardContinuationFrameStoreToLoad szC1 domAlways true
        [⟨none, UseKind.store true false 0 100⟩,
         ⟨none, UseKind.gep (some 0)⟩,
         ⟨some 1, UseKind.load true 0⟩]).replaced ∧
      2 ∈ (forwardContinuationFrameStoreToLoad szC1 domAlways true
        [⟨none, UseKind.store true false 0 100⟩,
         ⟨none, UseKind.gep (some 0)⟩,
         ⟨some 1, UseKind.load true 0⟩]).erasedLoads) ∧
    1 ∈ (forwardContinuationFrameStoreToLoad szC1 domAlways true
        [⟨none, UseKind.store true false 0 100⟩,
         ⟨none, UseKind.gep (some 0)⟩,
         ⟨some 1, UseKind.load true 0⟩]).erasedPtrs := by
  have h := forwardFrameStore_single_store_forwards szC1 domAlways true
    [⟨none, UseKind.store true false 0 100⟩,
     ⟨none, UseKind.gep (some 0)⟩,
     ⟨some 1, UseKind.load true 0⟩]
    ⟨[none, some 0, none], [⟨2, some 1, 0, 0⟩], [⟨0, 0, 0, 100⟩]⟩
    ⟨0, 0, 0, 100⟩ ⟨2, some 1, 0, 0⟩
    rfl rfl rfl rfl (by decide) rfl rfl rfl
  refine ⟨h.1, h.2 1 rfl (by decide) (by decide) ?_⟩
  intro l hl q hq
  have hleq : l = ⟨2, some 1, 0, 0⟩ := by simpa using hl
  subst hleq
  have hq1 : q = 1 := by simpa using hq.symm
  subst hq1
  decide

/-- C4: for every module containing at least one traversal-stack operation,
`LowerGpuRt::createGlobalStack` creates the `LdsStack` global with capacity
(in 32-bit words) equal to `16 * W * (2 if any stack read/write requests the
extra stack, else 1)` in machine (mod 2^32) arithmetic, where
`W = getWorkgroupSize()` is 64 for graphics stages and the product of the
three compute workgroup dimensions otherwise, rounded up to the next
multiple of 32 when the gfx version major is at least 11; no global is
created when no stack operation exists.  The hypothesis reflects the
source assert `workgroupSize != 0`. -/
theorem createGlobalStack_capacity (isGraphics : Bool) (wgX wgY wgZ gfxMajor : Nat)
    (ops : List GpurtOp)
    (hnz : 0 < if isGraphics then 64 else (wgX * wgY * wgZ) % 2 ^ 32) :
    createGlobalStack isGraphics wgX wgY wgZ gfxMajor ops =
      if needGlobalStack ops then
        some (16 * getWorkgroupSize isGraphics wgX wgY wgZ gfxMajor *
          (if needExtraStack ops then 2 else 1) % 2 ^ 32)
      else none := by
  by_cases hg : needGlobalStack ops = true
  · by_cases he : needExtraStack ops = true
    · simp only [createGlobalStack, MaxLdsStackEntries, hg, he, if_true,
        Option.some.injEq]
      omega
    · have he2 : needExtraStack ops = false := by simpa using he
      simp only [createGlobalStack, MaxLdsStackEntries, hg, he2, if_true,
        Bool.false_eq_true, if_false, Option.some.injEq]
      omega
  · have hg2 : needGlobalStack ops = false := by simpa using hg
    simp [createGlobalStack, hg2]

/-- Witness for C4: a graphics module with one `LdsStackInit` op on gfx 11
gets an `LdsStack` global of 16 * 64 = 1024 words. -/
theorem createGlobalStack_capacity_witness :
    (0 < if true then 64 else (1 * 1 * 1) % 2 ^ 32) ∧
    createGlobalStack true 1 1 1 11 [GpurtOp.ldsStackInit] =
      (if needGlobalStack [GpurtOp.ldsStackInit] then
        some (16 * getWorkgroupSize true 1 1 1 11 *
          (if needExtraStack [GpurtOp.ldsStackInit] then 2 else 1) % 2 ^ 32)
      else none) :=
  ⟨by decide,
   createGlobalStack_capacity true 1 1 1 11 [GpurtOp.ldsStackInit] (by decide)⟩

/-- Counterexample for C5: the base-offset computation of `visitLdsStackInit`
uses wrapping i32 arithmetic, so for the workgroup size `W = 2^28 + 1 > 32`
the two distinct in-range thread indices `0` and `2^28` receive the same
base offset `0` — the claimed injectivity over `[0, W)` for every `W > 32`
fails. -/
theorem ldsStackBasePerThread_collision :
    32 < 2 ^ 28 + 1 ∧ 0 < 2 ^ 28 ∧ 2 ^ 28 < 2 ^ 28 + 1 ∧
    ldsStackBasePerThread (2 ^ 28 + 1) 0 = 0 ∧
    ldsStackBasePerThread (2 ^ 28 + 1) (2 ^ 28) = 0 := by
  refine ⟨by norm_num, by norm_num, by norm_num, by decide, by decide⟩

/-- C5 (amended): for every workgroup size `W` with `32 < W ≤ 2^28` (so that
the i32 computation cannot wrap) and all thread indices in `[0, W)`, the
per-thread base offsets `base(t) = (t mod 32) + (t div 32) * (16 * 32)`
computed by the LdsStackInit lowering are pairwise distinct, and every
`base(t)` lies within `[0, 16*W)`. -/
theorem ldsStackBasePerThread_inj_range (W : Nat) (h32 : 32 < W)
    (hW : W ≤ 2 ^ 28) :
    (∀ t1 t2, t1 < W → t2 < W →
      ldsStackBasePerThread W t1 = ldsStackBasePerThread W t2 → t1 = t2) ∧
    (∀ t, t < W → ldsStackBasePerThread W t < 16 * W) := by
  constructor
  · intro t1 t2 h1 h2 heq
    simp only [ldsStackBasePerThread, if_pos h32, MaxLdsStackEntries] at heq
    omega
  · intro t ht
    simp only [ldsStackBasePerThread, if_pos h32, MaxLdsStackEntries]
    omega

/-- Witness for C5 (amended): at `W = 64` the base offset of thread 33 is in
range. -/
theorem ldsStackBasePerThread_inj_range_witness :
    32 < 64 ∧ 64 ≤ 2 ^ 28 ∧ ldsStackBasePerThread 64 33 < 16 * 64 :=
  ⟨by norm_num, by norm_num,
   (ldsStackBasePerThread_inj_range 64 (by norm_num) (by norm_num)).2 33
     (by norm_num)⟩

/-- C6: for an intrinsic table entry that needs hit data,
`replaceIntrinsicCall` selects the candidate-state accessor
`_cont_GetCandidateState` when the shader stage is any-hit or intersection,
and the committed-state accessor `_cont_GetCommittedState` for every other
stage (in particular closest-hit), and passes the state through a
stack-local temporary as the hit-data argument right after the system-data
argument. -/
theorem replaceIntrinsicCall_hit_state_selection (kind : DXILShaderKind) :
    ((kind = DXILShaderKind.AnyHit ∨ kind = DXILShaderKind.Intersection) →
      replaceIntrinsicCallArgsHead true kind =
        [IntrArg.systemData, IntrArg.hitDataAlloca "_cont_GetCandidateState"]) ∧
    (kind = DXILShaderKind.ClosestHit →
      replaceIntrinsicCallArgsHead true kind =
        [IntrArg.systemData, IntrArg.hitDataAlloca "_cont_GetCommittedState"]) ∧
    (kind ≠ DXILShaderKind.AnyHit → kind ≠ DXILShaderKind.Intersection →
      replaceIntrinsicCallArgsHead true kind =
        [IntrArg.systemData, IntrArg.hitDataAlloca "_cont_GetCommittedState"]) := by
  cases kind <;>
    simp [replaceIntrinsicCallArgsHead, getHitDataFunctionName]

/-- Witness for C6: the intersection stage selects the candidate state. -/
theorem replaceIntrinsicCall_hit_state_selection_witness :
    replaceIntrinsicCallArgsHead true DXILShaderKind.Intersection =
      [IntrArg.systemData, IntrArg.hitDataAlloca "_cont_GetCandidateState"] :=
  (replaceIntrinsicCall_hit_state_selection DXILShaderKind.Intersection).1
    (Or.inr rfl)

/-- C7: `continuationStackOffsetToPtr` returns the 32-bit offset directly
reinterpreted (int-to-pointer) into the scratch address space when the
module addressing mode is Scratch; in Global mode it reinterprets the
64-bit base address obtained from the runtime library as a byte pointer and
returns base+offset via indexed addressing; and it fails with a fatal error
if and only if no addressing-mode metadata is configured for the module. -/
theorem continuationStackOffsetToPtr_spec (m : Option ContStackAddrspace) :
    continuationStackOffsetToPtr (some ContStackAddrspace.Scratch) =
      Except.ok (StackPtr.intToPtr StackAddrVal.offset32 ContStackAddrspace.Scratch) ∧
    continuationStackOffsetToPtr (some ContStackAddrspace.Global) =
      Except.ok (StackPtr.gepI8
        (StackPtr.intToPtr StackAddrVal.globalMemBase ContStackAddrspace.Global)
        StackAddrVal.offset32) ∧
    ((∃ e, continuationStackOffsetToPtr m = Except.error e) ↔ m = none) := by
  refine ⟨rfl, rfl, ?_⟩
  cases m with
  | none => simp [continuationStackOffsetToPtr]
  | some a => cases a <;> simp [continuationStackOffsetToPtr]

/-- Counterexample for C8: invoking `replaceAllPointerUses` with a new
pointer type whose address space equals the current one does not complete as
a benign no-op — it violates the entry assertion
`NewAS != OldPtrTy->getAddressSpace()` and aborts before touching the
function, so the claimed "unchanged except lifetime markers" rewrite never
happens. -/
theorem replaceAllPointerUses_same_addrspace_asserts :
    replaceAllPointerUses 3 3 true [PtrUserKind.loadInst] =
      Except.error "assert failed: NewAS != OldPtrTy address space" := rfl

/-- C8 (amended): re-invoking the pointer address-space rewrite with a new
pointer type whose address space equals the pointer's current address space
violates the function's assert-level precondition: the call is rejected at
entry, before any retyping, use replacement or lifetime-marker deletion is
applied, so a second rewrite into the same address space is not supported
rather than idempotent. -/
theorem replaceAllPointerUses_same_addrspace_rejected (oldAS newAS : Nat)
    (typesOtherwiseEqual : Bool) (visitedUsers : List PtrUserKind)
    (h : newAS = oldAS) :
    replaceAllPointerUses oldAS newAS typesOtherwiseEqual visitedUsers =
      Except.error "assert failed: NewAS != OldPtrTy address space" := by
  simp [replaceAllPointerUses, h]

/-- Witness for C8 (amended): a same-address-space invocation over a single
lifetime marker is rejected at entry. -/
theorem replaceAllPointerUses_same_addrspace_rejected_witness :
    replaceAllPointerUses 5 5 true [PtrUserKind.lifetimeCall] =
      Except.error "assert failed: NewAS != OldPtrTy address space" :=
  replaceAllPointerUses_same_addrspace_rejected 5 5 true
    [PtrUserKind.lifetimeCall] rfl

/-- C9: `visitGetStackSize` replaces the stack-size query with the constant
`16 * workgroupSize` with no doubling for the extra-stack variant; even when
the extra-stack flag doubles the allocated `LdsStack` capacity, the value
returned by the query stays the undoubled single-stack size (the allocated
capacity is exactly twice it). -/
theorem visitGetStackSize_undoubled (isGraphics : Bool)
    (wgX wgY wgZ gfxMajor : Nat) (ops : List GpurtOp)
    (hglobal : needGlobalStack ops = true) (hextra : needExtraStack ops = true) :
    visitGetStackSize isGraphics wgX wgY wgZ gfxMajor =
      16 * getWorkgroupSize isGraphics wgX wgY wgZ gfxMajor % 2 ^ 32 ∧
    createGlobalStack isGraphics wgX wgY wgZ gfxMajor ops =
      some (2 * visitGetStackSize isGraphics wgX wgY wgZ gfxMajor % 2 ^ 32) := by
  constructor
  · rfl
  · simp only [createGlobalStack, visitGetStackSize, MaxLdsStackEntries, hglobal,
      hextra, if_true]
    refine congrArg some ?_
    omega

/-- Witness for C9: a graphics module with one extra-stack read gets a
2048-word global while the stack-size query reports 1024. -/
theorem visitGetStackSize_undoubled_witness :
    visitGetStackSize true 1 1 1 0 =
      16 * getWorkgroupSize true 1 1 1 0 % 2 ^ 32 ∧
    createGlobalStack true 1 1 1 0 [GpurtOp.stackRead true] =
      some (2 * visitGetStackSize true 1 1 1 0 % 2 ^ 32) :=
  visitGetStackSize_undoubled true 1 1 1 0 [GpurtOp.stackRead true] rfl rfl

/-- C10: `LowerGpuRt::run` returns `PreservedAnalyses::all()` exactly when at
least one abstract gpurt call was lowered (and hence erased, so the module
was modified), and returns `PreservedAnalyses::none()` exactly when no call
was lowered and the module is left untouched. -/
theorem LowerGpuRt_run_preserved (m : List ModuleCall) :
    (LowerGpuRt.run m = PreservedAnalyses.all ↔ ∃ c ∈ m, isLoweredCall c = true) ∧
    (LowerGpuRt.run m = PreservedAnalyses.none ↔ callsToLower m = []) ∧
    (callsToLower m = [] ↔ eraseLoweredCalls m = m) := by
  have key : (0 < (callsToLower m).length) ↔ ∃ c ∈ m, isLoweredCall c = true := by
    simp [callsToLower, List.length_pos_iff_exists_mem, List.mem_filter]
  refine ⟨?_, ?_, ?_⟩
  · rw [LowerGpuRt.run]
    split
    · exact iff_of_true rfl (key.mp (by assumption))
    · refine iff_of_false (fun hc => PreservedAnalyses.noConfusion hc) ?_
      intro hex
      exact (by assumption : ¬0 < (callsToLower m).length) (key.mpr hex)
  · rw [LowerGpuRt.run]
    split
    · refine iff_of_false (fun hc => PreservedAnalyses.noConfusion hc) ?_
      intro hnil
      have h0 := (by assumption : 0 < (callsToLower m).length)
      rw [hnil] at h0
      exact absurd h0 (by simp)
    · refine iff_of_true rfl ?_
      have h0 : (callsToLower m).length = 0 := by omega
      exact List.length_eq_zero.mp h0
  · simp only [callsToLower, eraseLoweredCalls, List.filter_eq_nil_iff,
      List.filter_eq_self]
    constructor
    · intro h c hc
      simpa using h c hc
    · intro h c hc
      simpa using h c hc
